import Mathlib

/-!
# Verification of the meeting-slot scheduling engine

Shallow embedding of the scheduling core of `src/mcp/main.py` (the
`schedule_meeting`, `get_free_slots` and `add_potential_slot` tools over the
MongoDB `meeting_slots` collection) and of the session-identity mapper of
`src/common/session_thread_mapper.py`.

Modelling decisions:
* Timestamps (`datetime`) are modelled as natural numbers counting minutes;
  all comparisons used by the store queries are order comparisons, and the
  synthesis loop of `get_free_slots` works at whole-minute granularity
  (`replace(minute=0, second=0, microsecond=0)` plus hour steps).
* The MongoDB collection is modelled as a list of documents in natural
  (insertion) order together with a fresh-identifier counter standing for
  `ObjectId` generation; `find_one` is `List.find?`, `insert_one` appends,
  and `find_one_and_update` on a `_id` filter rewrites the document with
  that identifier.
* `datetime.now()` is passed explicitly as a parameter `now`.
* Each operation is total; the `await` points of the source are sequential
  store round-trips, embedded as pure state passing.
-/

/-- Fields shared by requests and stored slots (`MeetingSlotBase`). -/
structure MeetingSlotBase where
  title : String
  description : Option String
  name : Option String
  phone_number : Option String
  start_time : Nat
  end_time : Nat
  deriving Repr, DecidableEq

/-- `ScheduleMeetingRequest(MeetingSlotBase)`. -/
abbrev ScheduleMeetingRequest := MeetingSlotBase

/-- `MeetingSlotCreate(MeetingSlotBase)`. -/
abbrev MeetingSlotCreate := MeetingSlotBase

/-- A stored document of the `meeting_slots` collection (`MeetingSlotDB`). -/
structure MeetingSlotDB where
  id : Nat
  title : String
  description : Option String
  name : Option String
  phone_number : Option String
  start_time : Nat
  end_time : Nat
  booked : Bool
  deriving Repr, DecidableEq

/-- The response shape of the tools (`MeetingSlotResponse`). -/
structure MeetingSlotResponse where
  id : Nat
  title : String
  description : Option String
  name : Option String
  phone_number : Option String
  start_time : Nat
  end_time : Nat
  booked : Bool
  deriving Repr, DecidableEq

/-- `FreeSlotResponse`. -/
structure FreeSlotResponse where
  start_time : Nat
  end_time : Nat
  deriving Repr, DecidableEq

/-- The `meeting_slots` collection: documents in insertion order plus the
next fresh identifier (modelling `ObjectId` generation). -/
structure Store where
  slots : List MeetingSlotDB
  nextId : Nat
  deriving Repr, DecidableEq

/-- The `$or` body of the overlap query built in `schedule_meeting`
(lines 183–190) and again in `get_free_slots` (lines 271–278), for a stored
document with `start_time = s1`, `end_time = e1` against a candidate
interval `[s2, e2)`:
`{"start_time": {"$lt": e2, "$gte": s2}}` or
`{"end_time": {"$gt": s2, "$lte": e2}}` or
`{"start_time": {"$lte": s2}, "end_time": {"$gte": e2}}`. -/
def overlapCond (s1 e1 s2 e2 : Nat) : Bool :=
  (decide (s1 < e2) && decide (s2 ≤ s1)) ||
  (decide (s2 < e1) && decide (e1 ≤ e2)) ||
  (decide (s1 ≤ s2) && decide (e2 ≤ e1))

/-- The filter of the first query of `schedule_meeting` (lines 144–150):
`{"start_time": request.start_time, "end_time": request.end_time,
"booked": False}`. -/
def isExactUnbooked (request : ScheduleMeetingRequest) (m : MeetingSlotDB) : Bool :=
  m.start_time == request.start_time && m.end_time == request.end_time && m.booked == false

/-- The full overlap query `{"booked": True, "$or": [...]}` as a document
filter for candidate interval `[s2, e2)`. -/
def matchesOverlapQuery (s2 e2 : Nat) (m : MeetingSlotDB) : Bool :=
  m.booked && overlapCond m.start_time m.end_time s2 e2

/-- Response built from a stored document (the repeated
`MeetingSlotResponse(id=str(doc["_id"]), ...)` constructions). -/
def responseOf (m : MeetingSlotDB) : MeetingSlotResponse :=
  { id := m.id
    title := m.title
    description := m.description
    name := m.name
    phone_number := m.phone_number
    start_time := m.start_time
    end_time := m.end_time
    booked := m.booked }

/-- `schedule_meeting` (lines 130–233). Returns the response and the store
after the call.
1. `find_one` an exact unbooked match; if found, `find_one_and_update` it
   (`$set` booked and the descriptive fields from the request) and return it.
2. Else `find_one` a booked document matching the overlap query; if found,
   return the conflict response without touching the store.
3. Else `insert_one` a new booked document built from the request and
   return it. -/
def schedule_meeting (st : Store) (request : ScheduleMeetingRequest) :
    MeetingSlotResponse × Store :=
  match st.slots.find? (isExactUnbooked request) with
  | some existing =>
    let updated : MeetingSlotDB :=
      { existing with
        booked := true
        title := request.title
        description := request.description
        name := request.name
        phone_number := request.phone_number }
    let slots' := st.slots.map (fun m => if m.id = existing.id then updated else m)
    (responseOf updated, { st with slots := slots' })
  | none =>
    match st.slots.find? (matchesOverlapQuery request.start_time request.end_time) with
    | some overlapping =>
      ({ id := overlapping.id
         title := "Conflicting Meeting"
         description := some "Cannot book this slot due to an existing meeting."
         name := overlapping.name
         phone_number := overlapping.phone_number
         start_time := overlapping.start_time
         end_time := overlapping.end_time
         booked := false }, st)
    | none =>
      let newMeeting : MeetingSlotDB :=
        { id := st.nextId
          title := request.title
          description := request.description
          name := request.name
          phone_number := request.phone_number
          start_time := request.start_time
          end_time := request.end_time
          booked := true }
      (responseOf newMeeting,
       { slots := st.slots ++ [newMeeting], nextId := st.nextId + 1 })

/-- `add_potential_slot` (lines 289–328): unconditionally `insert_one` a new
unbooked document built from `slot_data` and return it. -/
def add_potential_slot (st : Store) (slot_data : MeetingSlotCreate) :
    MeetingSlotResponse × Store :=
  let newSlot : MeetingSlotDB :=
    { id := st.nextId
      title := slot_data.title
      description := slot_data.description
      name := slot_data.name
      phone_number := slot_data.phone_number
      start_time := slot_data.start_time
      end_time := slot_data.end_time
      booked := false }
  (responseOf newSlot, { slots := st.slots ++ [newSlot], nextId := st.nextId + 1 })

/-- Stable insertion of a document into a list sorted ascending by
`start_time` (used to model `.sort("start_time")`). -/
def insertByStart (m : MeetingSlotDB) : List MeetingSlotDB → List MeetingSlotDB
  | [] => [m]
  | x :: xs =>
    if m.start_time ≤ x.start_time then m :: x :: xs else x :: insertByStart m xs

/-- `collection.find(query).sort("start_time")`: ascending order by
`start_time`. -/
def sortByStart (l : List MeetingSlotDB) : List MeetingSlotDB :=
  l.foldr insertByStart []

/-- The filter of the free-slot query of `get_free_slots` (lines 247–249):
`{"booked": False}` plus, when `start_after` is given,
`"start_time": {"$gte": start_after}`. -/
def matchesFreeQuery (start_after : Option Nat) (m : MeetingSlotDB) : Bool :=
  m.booked == false &&
    match start_after with
    | some t => decide (t ≤ m.start_time)
    | none => true

/-- `duration_minutes or 30` (line 269): Python `or` replaces both `None`
and `0` by the default. -/
def effectiveDuration (duration_minutes : Option Nat) : Nat :=
  match duration_minutes with
  | none => 30
  | some d => if d = 0 then 30 else d

/-- Lines 258–261: `now.replace(minute=0, second=0, microsecond=0)`,
advanced one hour when `now.minute > 0`. -/
def roundUpHour (t : Nat) : Nat :=
  if t % 60 > 0 then 60 * (t / 60) + 60 else 60 * (t / 60)

/-- The synthesis base `current_hour`: `now = start_after or datetime.now()`
rounded up to the whole hour. -/
def synthBase (start_after : Option Nat) (now : Nat) : Nat :=
  roundUpHour (start_after.getD now)

/-- The `while suggested_count < 5 and attempts < max_attempts` loop of
`get_free_slots` (lines 263–284). `fuel` is an upper bound on the remaining
iterations making the recursion structural; the source condition
`attempts < 20` is kept verbatim and the loop is entered with `fuel = 20`
and `attempts = 0`, so the fuel never runs out before the condition fails.
Returns the accepted candidates together with the number of overlap
queries (`collection.find_one(overlap_query)`) performed. -/
def synthLoop (st : Store) (dur : Nat) (base : Nat) :
    Nat → Nat → Nat → List FreeSlotResponse × Nat
  | _, _, 0 => ([], 0)
  | suggested, attempts, fuel + 1 =>
    if suggested < 5 && attempts < 20 then
      let slot_start := base + 60 * attempts
      let slot_end := slot_start + dur
      match st.slots.find? (matchesOverlapQuery slot_start slot_end) with
      | some _ =>
        let rest := synthLoop st dur base suggested (attempts + 1) fuel
        (rest.1, rest.2 + 1)
      | none =>
        let rest := synthLoop st dur base (suggested + 1) (attempts + 1) fuel
        (⟨slot_start, slot_end⟩ :: rest.1, rest.2 + 1)
    else ([], 0)

/-- `get_free_slots` (lines 236–286). `now` stands for `datetime.now()`.
Returns the response list together with the number of overlap queries
performed by the synthesis loop (0 when stored free slots exist). -/
def get_free_slots (st : Store) (start_after : Option Nat)
    (duration_minutes : Option Nat) (now : Nat) : List FreeSlotResponse × Nat :=
  let free := sortByStart (st.slots.filter (matchesFreeQuery start_after))
  let responses := free.map (fun m => ⟨m.start_time, m.end_time⟩)
  if responses.isEmpty then
    synthLoop st (effectiveDuration duration_minutes)
      (synthBase start_after now) 0 0 20
  else
    (responses, 0)

/-- The store-mutating calls reachability in §8/§3 quantifies over. -/
inductive Op where
  | schedule (request : ScheduleMeetingRequest)
  | addPotential (slot_data : MeetingSlotCreate)
  deriving Repr, DecidableEq

/-- Apply one call to the store, keeping the post-state. -/
def applyOp (st : Store) : Op → Store
  | .schedule r => (schedule_meeting st r).2
  | .addPotential d => (add_potential_slot st d).2

/-- The empty collection. -/
def emptyStore : Store := ⟨[], 0⟩

/-- Run a sequence of calls. -/
def runOps (st : Store) (ops : List Op) : Store :=
  ops.foldl applyOp st

/-- States reachable from the empty collection via `schedule_meeting` and
`add_potential_slot` calls. -/
def Reachable (st : Store) : Prop :=
  ∃ ops : List Op, runOps emptyStore ops = st

/-- Two distinct slots violate the booked-overlap invariant when both are
booked and their intervals overlap per the §4.1 three-clause test (in
either orientation). -/
def slotsConflict (a b : MeetingSlotDB) : Bool :=
  a.booked && b.booked &&
    (overlapCond a.start_time a.end_time b.start_time b.end_time ||
     overlapCond b.start_time b.end_time a.start_time a.end_time)

/-- The §3/§8 invariant: no two slots with `booked = true` have
overlapping intervals per the §4.1 test. -/
def NoBookedOverlap (st : Store) : Prop :=
  st.slots.Pairwise (fun a b => slotsConflict a b = false)

/-- A sequence of `schedule_meeting` calls executed sequentially. -/
def runSchedules (st : Store) (reqs : List ScheduleMeetingRequest) : Store :=
  reqs.foldl (fun s r => (schedule_meeting s r).2) st

/-! ## Session-identity mapper (`src/common/session_thread_mapper.py`)

`_generate_thread_id` calls `hashlib.sha256` from the Python standard
library (not part of this repository); SHA-256 (FIPS 180-4) is embedded
below over `Nat` with explicit reduction modulo `2 ^ 32`. -/

/-- `2 ^ 32`. -/
def M32 : Nat := 4294967296

/-- Addition modulo `2 ^ 32`. -/
def add32 (a b : Nat) : Nat := (a + b) % M32

/-- Right rotation of a 32-bit word by `n` places (for `x < 2 ^ 32`). -/
def rotr32 (n x : Nat) : Nat := x / 2 ^ n + x % 2 ^ n * 2 ^ (32 - n)

/-- Bitwise complement of a 32-bit word. -/
def not32 (x : Nat) : Nat := x ^^^ 4294967295

/-- SHA-256 `Ch(e, f, g)`. -/
def shaCh (e f g : Nat) : Nat := (e &&& f) ^^^ (not32 e &&& g)

/-- SHA-256 `Maj(a, b, c)`. -/
def shaMaj (a b c : Nat) : Nat := (a &&& b) ^^^ (a &&& c) ^^^ (b &&& c)

/-- SHA-256 `Σ₀`. -/
def bigSigma0 (x : Nat) : Nat := rotr32 2 x ^^^ rotr32 13 x ^^^ rotr32 22 x

/-- SHA-256 `Σ₁`. -/
def bigSigma1 (x : Nat) : Nat := rotr32 6 x ^^^ rotr32 11 x ^^^ rotr32 25 x

/-- SHA-256 `σ₀`. -/
def smallSigma0 (x : Nat) : Nat := rotr32 7 x ^^^ rotr32 18 x ^^^ x / 2 ^ 3

/-- SHA-256 `σ₁`. -/
def smallSigma1 (x : Nat) : Nat := rotr32 17 x ^^^ rotr32 19 x ^^^ x / 2 ^ 10

/-- The 64 SHA-256 round constants. -/
def shaK : List Nat :=
  [1116352408, 1899447441, 3049323471, 3921009573, 961987163, 1508970993,
   2453635748, 2870763221, 3624381080, 310598401, 607225278, 1426881987,
   1925078388, 2162078206, 2614888103, 3248222580, 3835390401, 4022224774,
   264347078, 604807628, 770255983, 1249150122, 1555081692, 1996064986,
   2554220882, 2821834349, 2952996808, 3210313671, 3336571891, 3584528711,
   113926993, 338241895, 666307205, 773529912, 1294757372, 1396182291,
   1695183700, 1986661051, 2177026350, 2456956037, 2730485921, 2820302411,
   3259730800, 3345764771, 3516065817, 3600352804, 4094571909, 275423344,
   430227734, 506948616, 659060556, 883997877, 958139571, 1322822218,
   1537002063, 1747873779, 1955562222, 2024104815, 2227730452, 2361852424,
   2428436474, 2756734187, 3204031479, 3329325298]

/-- The SHA-256 initial hash value. -/
def shaH0 : List Nat :=
  [1779033703, 3144134277, 1013904242, 2773480762, 1359893119, 2600822924,
   528734635, 1541459225]

/-- UTF-8 encoding of one character (`str.encode()`). -/
def utf8EncodeChar (c : Char) : List Nat :=
  let n := c.toNat
  if n < 128 then [n]
  else if n < 2048 then [192 + n / 64, 128 + n % 64]
  else if n < 65536 then [224 + n / 4096, 128 + n / 64 % 64, 128 + n % 64]
  else [240 + n / 262144, 128 + n / 4096 % 64, 128 + n / 64 % 64, 128 + n % 64]

/-- UTF-8 encoding of a string as a byte list (`combined.encode()`). -/
def strToBytes (s : String) : List Nat :=
  (s.data.map utf8EncodeChar).flatten

/-- SHA-256 padding: append `0x80`, zeros to 56 mod 64 bytes, then the bit
length as 8 big-endian bytes. -/
def shaPad (msg : List Nat) : List Nat :=
  let bitLen := 8 * msg.length
  let zeros := (64 - (msg.length + 9) % 64) % 64
  msg ++ [128] ++ List.replicate zeros 0 ++
    (List.range 8).map (fun i => bitLen / 2 ^ (8 * (7 - i)) % 256)

/-- Group bytes into big-endian 32-bit words. -/
def bytesToWords : List Nat → List Nat
  | b0 :: b1 :: b2 :: b3 :: rest =>
    (b0 * 16777216 + b1 * 65536 + b2 * 256 + b3) :: bytesToWords rest
  | _ => []

/-- Split a word list into `n` chunks of 16 words. -/
def chunkWords : Nat → List Nat → List (List Nat)
  | 0, _ => []
  | n + 1, ws => ws.take 16 :: chunkWords n (ws.drop 16)

/-- Extend a 16-word block to the 64-word message schedule; `w` holds the
words produced so far, most recent first. -/
def extendW (w : List Nat) : Nat → List Nat
  | 0 => w.reverse
  | n + 1 =>
    let next := (smallSigma1 (w.getD 1 0) + w.getD 6 0 +
      smallSigma0 (w.getD 14 0) + w.getD 15 0) % M32
    extendW (next :: w) n

/-- One round of the SHA-256 compression function on the working variables
`[a, b, c, d, e, f, g, h]` with schedule word and round constant `wk`. -/
def shaRound (vars : List Nat) (wk : Nat × Nat) : List Nat :=
  match vars with
  | [a, b, c, d, e, f, g, h] =>
    let t1 := (h + bigSigma1 e + shaCh e f g + wk.2 + wk.1) % M32
    let t2 := (bigSigma0 a + shaMaj a b c) % M32
    [(t1 + t2) % M32, a, b, c, (d + t1) % M32, e, f, g]
  | l => l

/-- Process one 16-word block, updating the intermediate hash value. -/
def shaBlock (hs : List Nat) (block : List Nat) : List Nat :=
  let w := extendW block.reverse 48
  let vars := (w.zip shaK).foldl shaRound hs
  List.zipWith add32 hs vars

/-- SHA-256 of a byte list, as eight 32-bit words. -/
def sha256Words (msg : List Nat) : List Nat :=
  let ws := bytesToWords (shaPad msg)
  (chunkWords (ws.length / 16) ws).foldl shaBlock shaH0

/-- Lower-case hex digit. -/
def hexDigitChar (n : Nat) : Char :=
  if n < 10 then Char.ofNat (48 + n) else Char.ofNat (87 + n)

/-- A 32-bit word as eight lower-case hex characters. -/
def wordToHex (w : Nat) : List Char :=
  (List.range 8).map (fun i => hexDigitChar (w / 2 ^ (28 - 4 * i) % 16))

/-- `hashlib.sha256(s.encode()).hexdigest()`. -/
def sha256Hex (s : String) : String :=
  String.mk ((sha256Words (strToBytes s)).map wordToHex).flatten

/-- `SessionThreadMapper._generate_thread_id` (lines 65–76):
`"thread_" + sha256(f"{user_id}:{session_id}".encode()).hexdigest()[:16]`. -/
def generateThreadId (user_id session_id : String) : String :=
  "thread_" ++ String.mk (((sha256Words (strToBytes (user_id ++ ":" ++ session_id))).map
    wordToHex).flatten.take 16)

/-- The mapper's state: the two dictionaries `_session_to_thread` and
`_thread_to_session` as association lists, most recent binding first. The
`threading.Lock` serialises the methods; each method below is one critical
section. -/
structure SessionThreadMapper where
  sessionToThread : List ((String × String) × String)
  threadToSession : List (String × (String × String))
  deriving Repr, DecidableEq

/-- The freshly constructed mapper (`__init__`). -/
def SessionThreadMapper.empty : SessionThreadMapper := ⟨[], []⟩

/-- `SessionThreadMapper.get_thread_id` (lines 26–50): return the cached
thread id for `(user_id, session_id)` or generate, store bidirectionally
and return a new one. -/
def getThreadId (m : SessionThreadMapper) (user_id session_id : String) :
    String × SessionThreadMapper :=
  match m.sessionToThread.lookup (user_id, session_id) with
  | some t => (t, m)
  | none =>
    let t := generateThreadId user_id session_id
    (t, ⟨((user_id, session_id), t) :: m.sessionToThread,
         (t, (user_id, session_id)) :: m.threadToSession⟩)

/-- `SessionThreadMapper.get_session_info` (lines 52–63). -/
def getSessionInfo (m : SessionThreadMapper) (thread_id : String) :
    Option (String × String) :=
  m.threadToSession.lookup thread_id

/-- Consistency of a mapper state, as maintained by the class's methods:
every cached forward binding was produced by `_generate_thread_id` and has
the matching reverse binding. -/
def MapperWf (m : SessionThreadMapper) : Prop :=
  ∀ u s t, m.sessionToThread.lookup (u, s) = some t →
    t = generateThreadId u s ∧ m.threadToSession.lookup t = some (u, s)

instance (st : Store) : Decidable (NoBookedOverlap st) := by
  unfold NoBookedOverlap
  infer_instance

/-! ## Concrete stores and requests used by the counterexample and the
witnesses (§8 scenarios A–D of the spec, in minutes). -/

/-- The call sequence of the C1 counterexample: seed a potential slot
`[10:15, 10:45)` (in minutes: `[615, 645)`), then book `[10:00, 11:00)`
(`[600, 660)`) — the new booking passes the overlap check because the
potential slot is unbooked. -/
def cexOps : List Op :=
  [Op.addPotential ⟨"Potential", none, none, none, 615, 645⟩,
   Op.schedule ⟨"Meeting A", none, none, none, 600, 660⟩]

/-- The reachable store of the C1 counterexample: an unbooked `[615, 645)`
next to a booked `[600, 660)`. -/
def cexState : Store := runOps emptyStore cexOps

/-- The follow-up request of the C1 counterexample: exactly the potential
slot's interval, so `schedule_meeting` takes the reuse path and books it
with no overlap check. -/
def cexRequest : ScheduleMeetingRequest := ⟨"Meeting B", none, none, none, 615, 645⟩

/-- Scenario A store: one unbooked slot `[09:00, 09:30)`. -/
def storeA : Store := ⟨[⟨1, "Team Sync", none, none, none, 540, 570, false⟩], 2⟩

/-- Scenario A request: exactly `[09:00, 09:30)`. -/
def requestA : ScheduleMeetingRequest :=
  ⟨"Intro call", none, some "Me", some "555", 540, 570⟩

/-- Scenario B store: one booked slot `[10:00, 10:30)`. -/
def storeB : Store :=
  ⟨[⟨3, "Client Call", none, some "Client X", some "123-456-7890", 600, 630, true⟩], 4⟩

/-- Scenario B request: the overlapping `[10:15, 10:45)`. -/
def requestB : ScheduleMeetingRequest := ⟨"Intro call", none, some "Me", none, 615, 645⟩

/-- Scenario C store: one unbooked slot `[11:00, 11:30)`. -/
def storeC : Store := ⟨[⟨1, "Project Planning", none, none, none, 660, 690, false⟩], 2⟩

/-- Scenario C request: the non-overlapping `[12:00, 12:30)`. -/
def requestC : ScheduleMeetingRequest := ⟨"Intro call", none, none, none, 720, 750⟩

/-- Scenario D store: zero free slots, one booked slot `[09:00, 09:30)`. -/
def storeD : Store := ⟨[⟨1, "Busy", none, none, none, 540, 570, true⟩], 2⟩

/-- Request used in the C1 amended-claim witness. -/
def witnessRequest : ScheduleMeetingRequest := ⟨"W", none, none, none, 0, 30⟩

/-! ## Validation of the SHA-256 embedding against FIPS 180-4 test vectors. -/

example : sha256Hex "abc" =
    "ba7816bf8f01cfea414140de5dae2223b00361a396177a9cb410ff61f20015ad" := by decide

example : sha256Hex "" =
    "e3b0c44298fc1c149afbf4c8996fb92427ae41e4649b934ca495991b7852b855" := by decide

/-! ## Helper lemmas -/

/-- The overlap query, restricted to nondegenerate intervals, is the
half-open interval-intersection test. -/
theorem overlapCond_eq_halfOpen (s1 e1 s2 e2 : Nat) (h1 : s1 < e1) (h2 : s2 < e2) :
    overlapCond s1 e1 s2 e2 = true ↔ (s1 < e2 ∧ s2 < e1) := by
  simp only [overlapCond, Bool.or_eq_true, Bool.and_eq_true, decide_eq_true_eq]
  omega

/-- On nondegenerate intervals the overlap query is symmetric. -/
theorem overlapCond_symm (s1 e1 s2 e2 : Nat) (h1 : s1 < e1) (h2 : s2 < e2) :
    overlapCond s1 e1 s2 e2 = overlapCond s2 e2 s1 e1 := by
  have ha := overlapCond_eq_halfOpen s1 e1 s2 e2 h1 h2
  have hb := overlapCond_eq_halfOpen s2 e2 s1 e1 h2 h1
  by_cases hc : overlapCond s1 e1 s2 e2 = true
  · have : overlapCond s2 e2 s1 e1 = true := by
      rw [hb]
      have := ha.mp hc
      exact ⟨this.2, this.1⟩
    rw [hc, this]
  · have : ¬ overlapCond s2 e2 s1 e1 = true := by
      rw [hb]
      intro hx
      exact hc (ha.mpr ⟨hx.2, hx.1⟩)
    simp only [Bool.not_eq_true] at hc this
    rw [hc, this]

/-- When every stored slot is booked, the exact-unbooked query finds
nothing. -/
theorem find_exact_none_of_all_booked (st : Store) (r : ScheduleMeetingRequest)
    (hb : ∀ m ∈ st.slots, m.booked = true) :
    st.slots.find? (isExactUnbooked r) = none := by
  rw [List.find?_eq_none]
  intro m hm
  simp [isExactUnbooked, hb m hm]

/-- One `schedule_meeting` call preserves all-booked, nondegeneracy and the
booked-overlap invariant, for a nondegenerate request. -/
theorem schedule_preserves_inv (st : Store) (r : ScheduleMeetingRequest)
    (hb : ∀ m ∈ st.slots, m.booked = true)
    (hnd : ∀ m ∈ st.slots, m.start_time < m.end_time)
    (hno : NoBookedOverlap st)
    (hr : r.start_time < r.end_time) :
    (∀ m ∈ (schedule_meeting st r).2.slots, m.booked = true) ∧
    (∀ m ∈ (schedule_meeting st r).2.slots, m.start_time < m.end_time) ∧
    NoBookedOverlap (schedule_meeting st r).2 := by
  have hex : st.slots.find? (isExactUnbooked r) = none :=
    find_exact_none_of_all_booked st r hb
  cases hov : st.slots.find? (matchesOverlapQuery r.start_time r.end_time) with
  | some m =>
    simp only [schedule_meeting, hex, hov]
    exact ⟨hb, hnd, hno⟩
  | none =>
    have hnone : ∀ m ∈ st.slots, ¬ matchesOverlapQuery r.start_time r.end_time m = true := by
      rw [← List.find?_eq_none]
      exact hov
    simp only [schedule_meeting, hex, hov]
    refine ⟨?_, ?_, ?_⟩
    · intro m hm
      rcases List.mem_append.mp hm with h | h
      · exact hb m h
      · simp only [List.mem_singleton] at h
        rw [h]
    · intro m hm
      rcases List.mem_append.mp hm with h | h
      · exact hnd m h
      · simp only [List.mem_singleton] at h
        rw [h]
        exact hr
    · unfold NoBookedOverlap
      rw [List.pairwise_append]
      refine ⟨hno, List.pairwise_singleton _ _, ?_⟩
      intro a ha b hb2
      simp only [List.mem_singleton] at hb2
      subst hb2
      have hcond : overlapCond a.start_time a.end_time r.start_time r.end_time = false := by
        have hq := hnone a ha
        simp only [matchesOverlapQuery, Bool.and_eq_true, not_and] at hq
        exact Bool.not_eq_true _ |>.mp (hq (hb a ha))
      have hsym : overlapCond r.start_time r.end_time a.start_time a.end_time = false := by
        rw [overlapCond_symm r.start_time r.end_time a.start_time a.end_time hr (hnd a ha)]
        exact hcond
      simp [slotsConflict, hcond, hsym]

/-- Invariant preservation along a sequence of `schedule_meeting` calls. -/
theorem runSchedules_inv (reqs : List ScheduleMeetingRequest) :
    ∀ st : Store,
      (∀ m ∈ st.slots, m.booked = true) →
      (∀ m ∈ st.slots, m.start_time < m.end_time) →
      NoBookedOverlap st →
      (∀ r ∈ reqs, r.start_time < r.end_time) →
      (∀ m ∈ (runSchedules st reqs).slots, m.booked = true) ∧
      (∀ m ∈ (runSchedules st reqs).slots, m.start_time < m.end_time) ∧
      NoBookedOverlap (runSchedules st reqs) := by
  induction reqs with
  | nil =>
    intro st h1 h2 h3 _
    exact ⟨h1, h2, h3⟩
  | cons r rs ih =>
    intro st h1 h2 h3 hwf
    have hstep := schedule_preserves_inv st r h1 h2 h3 (hwf r (List.mem_cons_self _ _))
    have hrest := ih (schedule_meeting st r).2 hstep.1 hstep.2.1 hstep.2.2
      (fun x hx => hwf x (List.mem_cons_of_mem _ hx))
    simpa [runSchedules, List.foldl_cons] using hrest

/-- The synthesis loop accepts at most `5 - suggested` further slots. -/
theorem synthLoop_length_le (st : Store) (dur base : Nat) :
    ∀ fuel s a, (synthLoop st dur base s a fuel).1.length ≤ 5 - s := by
  intro fuel
  induction fuel with
  | zero =>
    intro s a
    simp [synthLoop]
  | succ n ih =>
    intro s a
    simp only [synthLoop]
    split
    · rename_i hcond
      simp only [Bool.and_eq_true, decide_eq_true_eq] at hcond
      cases st.slots.find? (matchesOverlapQuery (base + 60 * a) (base + 60 * a + dur)) with
      | some m =>
        simpa using ih s (a + 1)
      | none =>
        have := ih (s + 1) (a + 1)
        simp only [List.length_cons]
        omega
    · simp

/-- The synthesis loop performs at most `fuel` overlap queries. -/
theorem synthLoop_checks_le (st : Store) (dur base : Nat) :
    ∀ fuel s a, (synthLoop st dur base s a fuel).2 ≤ fuel := by
  intro fuel
  induction fuel with
  | zero =>
    intro s a
    simp [synthLoop]
  | succ n ih =>
    intro s a
    simp only [synthLoop]
    split
    · cases st.slots.find? (matchesOverlapQuery (base + 60 * a) (base + 60 * a + dur)) with
      | some m =>
        have := ih s (a + 1)
        simpa using Nat.add_le_add_right this 1
      | none =>
        have := ih (s + 1) (a + 1)
        simpa using Nat.add_le_add_right this 1
    · simp

/-- Every slot accepted by the synthesis loop passed an overlap query with
no match, and lies at a whole-hour offset below the attempt cap. -/
theorem synthLoop_mem (st : Store) (dur base : Nat) :
    ∀ fuel s a, ∀ r ∈ (synthLoop st dur base s a fuel).1,
      st.slots.find? (matchesOverlapQuery r.start_time r.end_time) = none ∧
      ∃ k, a ≤ k ∧ k < 20 ∧ r.start_time = base + 60 * k ∧
        r.end_time = base + 60 * k + dur := by
  intro fuel
  induction fuel with
  | zero =>
    intro s a r hr
    simp [synthLoop] at hr
  | succ n ih =>
    intro s a r hr
    simp only [synthLoop] at hr
    by_cases hcond : (decide (s < 5) && decide (a < 20)) = true
    · rw [if_pos hcond] at hr
      simp only [Bool.and_eq_true, decide_eq_true_eq] at hcond
      cases hfind : st.slots.find? (matchesOverlapQuery (base + 60 * a) (base + 60 * a + dur)) with
      | some m =>
        rw [hfind] at hr
        simp only at hr
        rcases ih s (a + 1) r hr with ⟨h1, k, hk1, hk2, hk3, hk4⟩
        exact ⟨h1, k, Nat.le_of_succ_le hk1, hk2, hk3, hk4⟩
      | none =>
        rw [hfind] at hr
        simp only [List.mem_cons] at hr
        rcases hr with hr | hr
        · subst hr
          exact ⟨hfind, a, Nat.le_refl a, hcond.2, rfl, rfl⟩
        · rcases ih (s + 1) (a + 1) r hr with ⟨h1, k, hk1, hk2, hk3, hk4⟩
          exact ⟨h1, k, Nat.le_of_succ_le hk1, hk2, hk3, hk4⟩
    · rw [if_neg hcond] at hr
      simp at hr

/-- When the free-slot query matches nothing, `get_free_slots` is exactly
the synthesis loop started at `suggested = 0`, `attempts = 0`, cap 20. -/
theorem get_free_slots_empty (st : Store) (sa dm : Option Nat) (now : Nat)
    (hempty : ∀ m ∈ st.slots, matchesFreeQuery sa m = false) :
    get_free_slots st sa dm now =
      synthLoop st (effectiveDuration dm) (synthBase sa now) 0 0 20 := by
  have hfil : st.slots.filter (matchesFreeQuery sa) = [] := by
    rw [List.filter_eq_nil_iff]
    intro a ha
    simp [hempty a ha]
  simp [get_free_slots, hfil, sortByStart]

/-- C5: the overlap predicate used by `schedule_meeting`'s conflict check
and by `get_free_slots`' synthesis check is, for a stored interval
`[s1, e1)` against a candidate `[s2, e2)`, exactly the disjunction of the
three §4.1 clauses: (a) `s1 < e2 ∧ s1 ≥ s2`, (b) `e1 > s2 ∧ e1 ≤ e2`,
(c) `s1 ≤ s2 ∧ e1 ≥ e2`; and the document filter both call sites pass to
`find_one` is that disjunction conjoined with `booked = true`. -/
theorem c5_overlap_test (s1 e1 s2 e2 : Nat) (m : MeetingSlotDB) :
    (overlapCond s1 e1 s2 e2 = true ↔
      (s1 < e2 ∧ s1 ≥ s2) ∨ (e1 > s2 ∧ e1 ≤ e2) ∨ (s1 ≤ s2 ∧ e1 ≥ e2)) ∧
    (matchesOverlapQuery s2 e2 m = true ↔
      m.booked = true ∧ overlapCond m.start_time m.end_time s2 e2 = true) := by
  constructor
  · simp only [overlapCond, Bool.or_eq_true, Bool.and_eq_true, decide_eq_true_eq,
      ge_iff_le, gt_iff_lt]
    tauto
  · simp [matchesOverlapQuery]

/-- C3: with no exact unbooked match and some booked slot overlapping the
request per §4.1, `schedule_meeting` returns a conflict result: `booked =
false`, the fixed conflict marker as title, the existing booked slot's
`name` and `phone_number`, and the existing slot's `start_time` and
`end_time`. -/
theorem c3_conflict_result (st : Store) (request : ScheduleMeetingRequest)
    (hnoexact : ∀ m ∈ st.slots, ¬ isExactUnbooked request m = true)
    (hover : ∃ m ∈ st.slots,
      matchesOverlapQuery request.start_time request.end_time m = true) :
    ∃ m, st.slots.find? (matchesOverlapQuery request.start_time request.end_time) = some m ∧
      m ∈ st.slots ∧ m.booked = true ∧
      overlapCond m.start_time m.end_time request.start_time request.end_time = true ∧
      (schedule_meeting st request).1.booked = false ∧
      (schedule_meeting st request).1.title = "Conflicting Meeting" ∧
      (schedule_meeting st request).1.name = m.name ∧
      (schedule_meeting st request).1.phone_number = m.phone_number ∧
      (schedule_meeting st request).1.start_time = m.start_time ∧
      (schedule_meeting st request).1.end_time = m.end_time := by
  have hex : st.slots.find? (isExactUnbooked request) = none := by
    rw [List.find?_eq_none]
    exact hnoexact
  have hsome : (st.slots.find? (matchesOverlapQuery request.start_time request.end_time)).isSome := by
    rw [List.find?_isSome]
    simpa using hover
  obtain ⟨m, hm⟩ := Option.isSome_iff_exists.mp hsome
  have hmem : m ∈ st.slots := List.mem_of_find?_eq_some hm
  have hmatch := List.find?_some hm
  simp only [matchesOverlapQuery, Bool.and_eq_true] at hmatch
  refine ⟨m, hm, hmem, hmatch.1, hmatch.2, ?_⟩
  simp [schedule_meeting, hex, hm]

/-- C4: a `schedule_meeting` call taking the overlap-conflict path leaves
the store completely unchanged: the same slots with the same field values
and the same fresh-identifier counter. -/
theorem c4_conflict_frame (st : Store) (request : ScheduleMeetingRequest)
    (hnoexact : ∀ m ∈ st.slots, ¬ isExactUnbooked request m = true)
    (hover : ∃ m ∈ st.slots,
      matchesOverlapQuery request.start_time request.end_time m = true) :
    (schedule_meeting st request).2 = st := by
  have hex : st.slots.find? (isExactUnbooked request) = none := by
    rw [List.find?_eq_none]
    exact hnoexact
  have hsome : (st.slots.find? (matchesOverlapQuery request.start_time request.end_time)).isSome := by
    rw [List.find?_isSome]
    simpa using hover
  obtain ⟨m, hm⟩ := Option.isSome_iff_exists.mp hsome
  simp [schedule_meeting, hex, hm]

/-- C10 (implicit): the conflict result carries the identifier of the
existing overlapping booked slot — an identifier already present in the
store, not a fresh one — together with a fixed refusal description, so a
caller ignoring `booked` cannot tell it apart from a booked slot's id. -/
theorem c10_conflict_id (st : Store) (request : ScheduleMeetingRequest)
    (hnoexact : ∀ m ∈ st.slots, ¬ isExactUnbooked request m = true)
    (hover : ∃ m ∈ st.slots,
      matchesOverlapQuery request.start_time request.end_time m = true) :
    ∃ m, st.slots.find? (matchesOverlapQuery request.start_time request.end_time) = some m ∧
      m ∈ st.slots ∧ m.booked = true ∧
      (schedule_meeting st request).1.id = m.id ∧
      (schedule_meeting st request).1.id ∈ st.slots.map (fun x => x.id) ∧
      (schedule_meeting st request).1.description =
        some "Cannot book this slot due to an existing meeting." := by
  have hex : st.slots.find? (isExactUnbooked request) = none := by
    rw [List.find?_eq_none]
    exact hnoexact
  have hsome : (st.slots.find? (matchesOverlapQuery request.start_time request.end_time)).isSome := by
    rw [List.find?_isSome]
    simpa using hover
  obtain ⟨m, hm⟩ := Option.isSome_iff_exists.mp hsome
  have hmem : m ∈ st.slots := List.mem_of_find?_eq_some hm
  have hmatch := List.find?_some hm
  simp only [matchesOverlapQuery, Bool.and_eq_true] at hmatch
  refine ⟨m, hm, hmem, hmatch.1, ?_, ?_, ?_⟩
  · simp only [schedule_meeting, hex, hm]
  · simp only [schedule_meeting, hex, hm]
    exact List.mem_map_of_mem (fun x => x.id) hmem
  · simp only [schedule_meeting, hex, hm]

/-- C2: a request whose `start_time`/`end_time` exactly equal those of some
stored unbooked slot reuses that slot: the response carries the found
slot's identifier and `booked = true`, the descriptive fields come from
the request, and no new slot is inserted (the stored identifiers and the
fresh-identifier counter are unchanged). -/
theorem c2_exact_reuse (st : Store) (request : ScheduleMeetingRequest)
    (hmatch : ∃ m ∈ st.slots, isExactUnbooked request m = true) :
    ∃ m, st.slots.find? (isExactUnbooked request) = some m ∧
      m ∈ st.slots ∧ m.booked = false ∧
      m.start_time = request.start_time ∧ m.end_time = request.end_time ∧
      (schedule_meeting st request).1.id = m.id ∧
      (schedule_meeting st request).1.booked = true ∧
      (schedule_meeting st request).1.title = request.title ∧
      (schedule_meeting st request).1.description = request.description ∧
      (schedule_meeting st request).1.name = request.name ∧
      (schedule_meeting st request).1.phone_number = request.phone_number ∧
      (schedule_meeting st request).1.start_time = request.start_time ∧
      (schedule_meeting st request).1.end_time = request.end_time ∧
      (schedule_meeting st request).2.slots.map (fun x => x.id) =
        st.slots.map (fun x => x.id) ∧
      (schedule_meeting st request).2.nextId = st.nextId := by
  have hsome : (st.slots.find? (isExactUnbooked request)).isSome := by
    rw [List.find?_isSome]
    simpa using hmatch
  obtain ⟨m, hm⟩ := Option.isSome_iff_exists.mp hsome
  have hmem : m ∈ st.slots := List.mem_of_find?_eq_some hm
  have hpred := List.find?_some hm
  simp only [isExactUnbooked, Bool.and_eq_true, beq_iff_eq] at hpred
  refine ⟨m, hm, hmem, hpred.2, hpred.1.1, hpred.1.2, ?_, ?_, ?_, ?_, ?_, ?_, ?_, ?_, ?_, ?_⟩
  · simp [schedule_meeting, hm, responseOf]
  · simp [schedule_meeting, hm, responseOf]
  · simp [schedule_meeting, hm, responseOf]
  · simp [schedule_meeting, hm, responseOf]
  · simp [schedule_meeting, hm, responseOf]
  · simp [schedule_meeting, hm, responseOf]
  · simp [schedule_meeting, hm, responseOf]
    exact hpred.1.1
  · simp [schedule_meeting, hm, responseOf]
    exact hpred.1.2
  · simp only [schedule_meeting, hm]
    rw [List.map_map]
    apply List.map_congr_left
    intro x hx
    by_cases hid : x.id = m.id
    · simp [Function.comp, hid]
    · simp [Function.comp, hid]
  · simp [schedule_meeting, hm]

/-- C6: with no exact unbooked match and no overlapping booked slot,
`schedule_meeting` appends exactly one new slot, booked and carrying all
the request's fields, returns it, and leaves every pre-existing slot
unchanged. -/
theorem c6_create_new (st : Store) (request : ScheduleMeetingRequest)
    (hnoexact : ∀ m ∈ st.slots, ¬ isExactUnbooked request m = true)
    (hnoover : ∀ m ∈ st.slots,
      ¬ matchesOverlapQuery request.start_time request.end_time m = true) :
    (schedule_meeting st request).2.slots =
      st.slots ++ [⟨st.nextId, request.title, request.description, request.name,
        request.phone_number, request.start_time, request.end_time, true⟩] ∧
    (schedule_meeting st request).1 =
      ⟨st.nextId, request.title, request.description, request.name,
        request.phone_number, request.start_time, request.end_time, true⟩ ∧
    (schedule_meeting st request).2.nextId = st.nextId + 1 := by
  have hex : st.slots.find? (isExactUnbooked request) = none := by
    rw [List.find?_eq_none]
    exact hnoexact
  have hov : st.slots.find? (matchesOverlapQuery request.start_time request.end_time) = none := by
    rw [List.find?_eq_none]
    exact hnoover
  refine ⟨?_, ?_, ?_⟩ <;> simp [schedule_meeting, hex, hov, responseOf]

/-- C7: when the store holds zero slots matching the free-slot query,
`get_free_slots` (a total function, hence terminating) returns at most
five synthesized slots and performs at most twenty overlap queries. -/
theorem c7_synthesis_bound (st : Store) (start_after duration_minutes : Option Nat)
    (now : Nat)
    (hempty : ∀ m ∈ st.slots, matchesFreeQuery start_after m = false) :
    (get_free_slots st start_after duration_minutes now).1.length ≤ 5 ∧
    (get_free_slots st start_after duration_minutes now).2 ≤ 20 := by
  rw [get_free_slots_empty st start_after duration_minutes now hempty]
  constructor
  · simpa using synthLoop_length_le st (effectiveDuration duration_minutes)
      (synthBase start_after now) 20 0 0
  · exact synthLoop_checks_le st (effectiveDuration duration_minutes)
      (synthBase start_after now) 20 0 0

/-- C8: when the store holds zero slots matching the free-slot query, every
slot returned by `get_free_slots` overlaps no booked slot per the §4.1
test, starts at the synthesis base plus a whole number of hours below the
attempt cap, and lasts the effective duration. -/
theorem c8_synthesized_slots (st : Store) (start_after duration_minutes : Option Nat)
    (now : Nat)
    (hempty : ∀ m ∈ st.slots, matchesFreeQuery start_after m = false) :
    ∀ r ∈ (get_free_slots st start_after duration_minutes now).1,
      (∀ m ∈ st.slots, m.booked = true →
        overlapCond m.start_time m.end_time r.start_time r.end_time = false) ∧
      ∃ k, k < 20 ∧ r.start_time = synthBase start_after now + 60 * k ∧
        r.end_time = r.start_time + effectiveDuration duration_minutes := by
  rw [get_free_slots_empty st start_after duration_minutes now hempty]
  intro r hr
  rcases synthLoop_mem st (effectiveDuration duration_minutes)
    (synthBase start_after now) 20 0 0 r hr with ⟨hfind, k, _, hk2, hk3, hk4⟩
  constructor
  · intro m hm hbk
    have hq := List.find?_eq_none.mp hfind m hm
    simp only [matchesOverlapQuery, Bool.and_eq_true, not_and, hbk] at hq
    exact Bool.not_eq_true _ |>.mp (hq trivial)
  · exact ⟨k, hk2, hk3, by rw [hk4, hk3]⟩

/-- C9: `get_thread_id` is deterministic — on any consistent mapper state it
returns `"thread_"` followed by the first 16 hex characters of the SHA-256
of `"user_id:session_id"`, a repeated call returns the same identifier —
and the reverse lookup of the returned identifier yields the original
`(user_id, session_id)` pair. -/
theorem c9_thread_id (m : SessionThreadMapper) (hwf : MapperWf m)
    (user_id session_id : String) :
    (getThreadId m user_id session_id).1 = generateThreadId user_id session_id ∧
    (getThreadId (getThreadId m user_id session_id).2 user_id session_id).1 =
      (getThreadId m user_id session_id).1 ∧
    getSessionInfo (getThreadId m user_id session_id).2
      (getThreadId m user_id session_id).1 = some (user_id, session_id) := by
  cases hl : m.sessionToThread.lookup (user_id, session_id) with
  | some t =>
    have hw := hwf user_id session_id t hl
    refine ⟨?_, ?_, ?_⟩
    · simp only [getThreadId, hl]
      exact hw.1
    · simp only [getThreadId, hl]
    · simp only [getThreadId, hl, getSessionInfo]
      exact hw.2
  | none =>
    refine ⟨?_, ?_, ?_⟩
    · simp only [getThreadId, hl]
    · simp only [getThreadId, hl]
      simp [List.lookup]
    · simp only [getThreadId, hl, getSessionInfo]
      simp [List.lookup]

/-- C1 is false of the code: from a state reachable via one
`add_potential_slot` and one `schedule_meeting` call, a single further
`schedule_meeting` call yields two booked slots whose intervals overlap
per the §4.1 test — the exact-match reuse path books a slot without any
overlap check. -/
theorem c1_counterexample :
    Reachable cexState ∧
      ¬ NoBookedOverlap (schedule_meeting cexState cexRequest).2 :=
  ⟨⟨cexOps, rfl⟩, by decide⟩

/-- C1 (amended): restricted to states holding no unbooked slot — those
reachable without `add_potential_slot` — whose slots are nondegenerate and
pairwise respect the booked-overlap invariant, every sequence of
nondegenerate `schedule_meeting` requests preserves, at every intermediate
point (every prefix of the sequence), that no two booked slots overlap per
the §4.1 test. -/
theorem c1_amended_invariant (st : Store) (reqs : List ScheduleMeetingRequest)
    (hbooked : ∀ m ∈ st.slots, m.booked = true)
    (hnd : ∀ m ∈ st.slots, m.start_time < m.end_time)
    (hinv : NoBookedOverlap st)
    (hwf : ∀ r ∈ reqs, r.start_time < r.end_time) :
    ∀ p q : List ScheduleMeetingRequest, reqs = p ++ q →
      NoBookedOverlap (runSchedules st p) := by
  intro p q hpq
  have hwfp : ∀ r ∈ p, r.start_time < r.end_time := by
    intro r hr
    apply hwf
    rw [hpq]
    exact List.mem_append_left q hr
  exact (runSchedules_inv p st hbooked hnd hinv hwfp).2.2

/-- Witness for the amended C1: the invariant after one booking on the
empty store. -/
theorem c1_amended_invariant_witness :
    NoBookedOverlap (runSchedules emptyStore [witnessRequest]) :=
  c1_amended_invariant emptyStore [witnessRequest]
    (by decide) (by decide) (by decide) (by decide)
    [witnessRequest] [] rfl

/-- Witness for C2 at scenario A: booking the exact interval of the stored
unbooked slot reuses it. -/
theorem c2_exact_reuse_witness :
    ∃ m, storeA.slots.find? (isExactUnbooked requestA) = some m ∧
      m ∈ storeA.slots ∧ m.booked = false ∧
      m.start_time = requestA.start_time ∧ m.end_time = requestA.end_time ∧
      (schedule_meeting storeA requestA).1.id = m.id ∧
      (schedule_meeting storeA requestA).1.booked = true ∧
      (schedule_meeting storeA requestA).1.title = requestA.title ∧
      (schedule_meeting storeA requestA).1.description = requestA.description ∧
      (schedule_meeting storeA requestA).1.name = requestA.name ∧
      (schedule_meeting storeA requestA).1.phone_number = requestA.phone_number ∧
      (schedule_meeting storeA requestA).1.start_time = requestA.start_time ∧
      (schedule_meeting storeA requestA).1.end_time = requestA.end_time ∧
      (schedule_meeting storeA requestA).2.slots.map (fun x => x.id) =
        storeA.slots.map (fun x => x.id) ∧
      (schedule_meeting storeA requestA).2.nextId = storeA.nextId :=
  c2_exact_reuse storeA requestA (by decide)

/-- Witness for C3 at scenario B: the conflict result carries the existing
booked slot's fields. -/
theorem c3_conflict_result_witness :
    ∃ m, storeB.slots.find?
        (matchesOverlapQuery requestB.start_time requestB.end_time) = some m ∧
      m ∈ storeB.slots ∧ m.booked = true ∧
      overlapCond m.start_time m.end_time requestB.start_time requestB.end_time = true ∧
      (schedule_meeting storeB requestB).1.booked = false ∧
      (schedule_meeting storeB requestB).1.title = "Conflicting Meeting" ∧
      (schedule_meeting storeB requestB).1.name = m.name ∧
      (schedule_meeting storeB requestB).1.phone_number = m.phone_number ∧
      (schedule_meeting storeB requestB).1.start_time = m.start_time ∧
      (schedule_meeting storeB requestB).1.end_time = m.end_time :=
  c3_conflict_result storeB requestB (by decide) (by decide)

/-- Witness for C4 at scenario B: the conflict path leaves the store
unchanged. -/
theorem c4_conflict_frame_witness :
    (schedule_meeting storeB requestB).2 = storeB :=
  c4_conflict_frame storeB requestB (by decide) (by decide)

/-- Witness for C6 at scenario C: a fresh booked slot is appended. -/
theorem c6_create_new_witness :
    (schedule_meeting storeC requestC).2.slots =
      storeC.slots ++ [⟨storeC.nextId, requestC.title, requestC.description,
        requestC.name, requestC.phone_number, requestC.start_time,
        requestC.end_time, true⟩] ∧
    (schedule_meeting storeC requestC).1 =
      ⟨storeC.nextId, requestC.title, requestC.description, requestC.name,
        requestC.phone_number, requestC.start_time, requestC.end_time, true⟩ ∧
    (schedule_meeting storeC requestC).2.nextId = storeC.nextId + 1 :=
  c6_create_new storeC requestC (by decide) (by decide)

/-- Witness for C7 at scenario D. -/
theorem c7_synthesis_bound_witness :
    (get_free_slots storeD (some 540) none 0).1.length ≤ 5 ∧
    (get_free_slots storeD (some 540) none 0).2 ≤ 20 :=
  c7_synthesis_bound storeD (some 540) none 0 (by decide)

/-- Witness for C8 at scenario D: the first synthesized slot `[600, 630)`
sits at a whole-hour offset from the base and lasts the default 30
minutes. -/
theorem c8_synthesized_slots_witness :
    ∃ k, k < 20 ∧
      (⟨600, 630⟩ : FreeSlotResponse).start_time = synthBase (some 540) 0 + 60 * k ∧
      (⟨600, 630⟩ : FreeSlotResponse).end_time =
        (⟨600, 630⟩ : FreeSlotResponse).start_time + effectiveDuration none :=
  (c8_synthesized_slots storeD (some 540) none 0 (by decide)
    ⟨600, 630⟩ (by decide)).2

/-- Witness for C9 on the freshly constructed mapper. -/
theorem c9_thread_id_witness :
    (getThreadId SessionThreadMapper.empty "u" "s").1 = generateThreadId "u" "s" ∧
    (getThreadId (getThreadId SessionThreadMapper.empty "u" "s").2 "u" "s").1 =
      (getThreadId SessionThreadMapper.empty "u" "s").1 ∧
    getSessionInfo (getThreadId SessionThreadMapper.empty "u" "s").2
      (getThreadId SessionThreadMapper.empty "u" "s").1 = some ("u", "s") := by
  have hwf : MapperWf SessionThreadMapper.empty := by
    intro u s t h
    simp [SessionThreadMapper.empty, List.lookup] at h
  exact c9_thread_id SessionThreadMapper.empty hwf "u" "s"

/-- Witness for C10 at scenario B: the conflict response reuses the stored
booked slot's identifier and the fixed refusal description. -/
theorem c10_conflict_id_witness :
    ∃ m, storeB.slots.find?
        (matchesOverlapQuery requestB.start_time requestB.end_time) = some m ∧
      m ∈ storeB.slots ∧ m.booked = true ∧
      (schedule_meeting storeB requestB).1.id = m.id ∧
      (schedule_meeting storeB requestB).1.id ∈ storeB.slots.map (fun x => x.id) ∧
      (schedule_meeting storeB requestB).1.description =
        some "Cannot book this slot due to an existing meeting." :=
  c10_conflict_id storeB requestB (by decide) (by decide)

/-- Cross-check of the thread-identifier transform against
`hashlib.sha256("u:s").hexdigest()[:16]`. -/
example : generateThreadId "u" "s" = "thread_02d085b01ce37882" := by decide
